import Mathlib

/-!
Shallow embedding of the SublimeClangFormat plugin (files `ClangFormat.py`
and `SublimeClangFormat.py`).  The two files are near-duplicates; where they
differ (the resolution check on a configured path, the error-message
formatting) both variants are embedded, suffixed `CF` (`ClangFormat.py`) and
`SCF` (`SublimeClangFormat.py`).

Modelling conventions:
- byte strings (Python `bytes`) are `List Nat` (each element < 256 at use
  sites);
- the filesystem executability check `is_exe` is an abstract parameter
  `is_exe : String → Bool` (the source reads the filesystem there);
- text codecs selected by name (`str.encode` / `bytes.decode` with a dynamic
  encoding argument) are abstract parameters returning `Option` (Python
  raises on failure); the literal `.decode('utf-8')` call on the error path
  is embedded by a concrete UTF-8 decoder `utf8Decode`;
- Python truthiness of strings/bytes is emptiness.
-/

/-- Python `str(n)` for a non-negative int: decimal digit characters. -/
def digitChar (d : Nat) : Char := Char.ofNat (48 + d)

/-- Accumulator loop producing the decimal digits of `n` (for `n > 0`);
the first argument is fuel bounding the number of divisions. -/
def natDigits : Nat → Nat → List Char → List Char
  | 0, _, acc => acc
  | fuel + 1, n, acc =>
    if n = 0 then acc else natDigits fuel (n / 10) (digitChar (n % 10) :: acc)

/-- Python `str` applied to a natural number. -/
def pyStr (n : Nat) : String :=
  if n = 0 then "0" else String.mk (natDigits n n [])

/-- `needle` occurs as a contiguous run at the front of `hay`. -/
def startsWith : List Char → List Char → Bool
  | _, [] => true
  | [], _ :: _ => false
  | h :: hs, n :: ns => h = n && startsWith hs ns

/-- `needle` occurs as a contiguous run somewhere in `hay`
(Python `needle in hay`). -/
def containsSub (hay needle : List Char) : Bool :=
  match hay with
  | [] => startsWith [] needle
  | _ :: t => startsWith hay needle || containsSub t needle

/-- Python `needle in hay` on strings. -/
def strContains (hay needle : String) : Bool :=
  containsSub hay.toList needle.toList

/-- Worker for Python `str.split` with a non-empty separator: scan left to
right, cutting at each occurrence of `sep` and keeping empty pieces.  The
`Nat` argument is fuel bounding the number of consumed characters. -/
def pySplitAux (sep : List Char) : Nat → List Char → List Char → List (List Char)
  | 0, s, cur => [cur.reverse ++ s]
  | fuel + 1, s, cur =>
    match s with
    | [] => [cur.reverse]
    | c :: rest =>
      if startsWith (c :: rest) sep then
        cur.reverse :: pySplitAux sep fuel ((c :: rest).drop sep.length) []
      else pySplitAux sep fuel rest (c :: cur)

/-- Python `s.split(sep)` for a non-empty separator `sep`: split on every
occurrence, keeping empty pieces (Python raises on an empty separator; that
case is never reached since `os.pathsep` is one character). -/
def pySplit (s sep : String) : List String :=
  if sep = "" then [s]
  else (pySplitAux sep.toList s.toList.length s.toList []).map String.mk

/-- Python `s.strip(chr(34))`: remove all leading and trailing
double-quote characters. -/
def stripQuotes (s : String) : String :=
  String.mk
    (((s.toList.dropWhile (fun c => c = Char.ofNat 34)).reverse.dropWhile
      (fun c => c = Char.ofNat 34)).reverse)

/-- POSIX `os.path.split`: split at the last slash; the head keeps no
trailing slashes unless it consists only of slashes. -/
def osPathSplit (p : String) : String × String :=
  let cs := p.toList
  let tail := (cs.reverse.takeWhile (fun c => c ≠ Char.ofNat 47)).reverse
  let head := cs.take (cs.length - tail.length)
  let head2 :=
    if head ≠ [] ∧ head.any (fun c => c ≠ Char.ofNat 47) then
      (head.reverse.dropWhile (fun c => c = Char.ofNat 47)).reverse
    else head
  (String.mk head2, String.mk tail)

/-- POSIX `os.path.join` on two components. -/
def osPathJoin (a b : String) : String :=
  if b.toList.head? = some (Char.ofNat 47) then b
  else if a = "" ∨ a.toList.getLast? = some (Char.ofNat 47) then a ++ b
  else a ++ "/" ++ b

/-- Is `b` a UTF-8 continuation byte (0x80–0xBF)? -/
def utf8Cont (b : Nat) : Bool := 128 ≤ b && b < 192

/-- Strict UTF-8 decoding of a byte list, as CPython
`bytes.decode(chr(117) ++ "tf-8")` (strict errors): `none` models a raised
`UnicodeDecodeError`.  Overlong forms and surrogates are rejected. -/
def utf8Decode : List Nat → Option (List Char)
  | [] => some []
  | b :: rest =>
    if b < 128 then (utf8Decode rest).map (fun cs => Char.ofNat b :: cs)
    else if 194 ≤ b && b ≤ 223 then
      match rest with
      | b2 :: r =>
        if utf8Cont b2 then
          (utf8Decode r).map (fun cs => Char.ofNat ((b - 192) * 64 + (b2 - 128)) :: cs)
        else none
      | [] => none
    else if 224 ≤ b && b ≤ 239 then
      match rest with
      | b2 :: b3 :: r =>
        let ok2 : Bool :=
          if b = 224 then 160 ≤ b2 && b2 ≤ 191
          else if b = 237 then 128 ≤ b2 && b2 ≤ 159
          else utf8Cont b2
        if ok2 && utf8Cont b3 then
          (utf8Decode r).map
            (fun cs => Char.ofNat ((b - 224) * 4096 + (b2 - 128) * 64 + (b3 - 128)) :: cs)
        else none
      | _ => none
    else if 240 ≤ b && b ≤ 244 then
      match rest with
      | b2 :: b3 :: b4 :: r =>
        let ok2 : Bool :=
          if b = 240 then 144 ≤ b2 && b2 ≤ 191
          else if b = 244 then 128 ≤ b2 && b2 ≤ 143
          else utf8Cont b2
        if ok2 && utf8Cont b3 && utf8Cont b4 then
          (utf8Decode r).map
            (fun cs =>
              Char.ofNat
                ((b - 240) * 262144 + (b2 - 128) * 4096 + (b3 - 128) * 64 + (b4 - 128)) :: cs)
        else none
      | _ => none
    else none

/-- Lowercase hexadecimal digit character. -/
def hexDigit (d : Nat) : Char :=
  if d < 10 then Char.ofNat (48 + d) else Char.ofNat (97 + d - 10)

/-- Escape of one byte inside a CPython `bytes` repr with quote
character `quote`. -/
def pyByteEscape (quote : Char) (b : Nat) : List Char :=
  if b = 92 then [Char.ofNat 92, Char.ofNat 92]
  else if b = quote.toNat then [Char.ofNat 92, quote]
  else if b = 9 then [Char.ofNat 92, Char.ofNat 116]
  else if b = 10 then [Char.ofNat 92, Char.ofNat 110]
  else if b = 13 then [Char.ofNat 92, Char.ofNat 114]
  else if b < 32 ∨ 127 ≤ b then [Char.ofNat 92, Char.ofNat 120, hexDigit (b / 16), hexDigit (b % 16)]
  else [Char.ofNat b]

/-- CPython `repr` (= `str`) of a `bytes` object, as produced by
`"%s" % error` when `error` is `bytes` under Python 3. -/
def pyBytesRepr (bs : List Nat) : String :=
  let quote := if bs.contains 39 && !(bs.contains 34) then Char.ofNat 34 else Char.ofNat 39
  String.mk (Char.ofNat 98 :: quote :: (bs.flatMap (pyByteEscape quote) ++ [quote]))

/-! ## Embedding of the source definitions shared by both files -/

/-- `style = 'Chromium'` (module-level constant in both files). -/
def style : String := "Chromium"

/-- `binary_name()`: platform-dependent formatter executable name,
`plat` standing for `sys.platform`. -/
def binary_name (plat : String) : String :=
  if strContains plat "win32" then "clang-format.exe" else "clang-format"

/-- The `for path in os.environ[...].split(os.pathsep)` loop body of
`which`: first directory whose joined candidate passes `is_exe`. -/
def whichSearch (is_exe : String → Bool) (dirs : List String) (program : String) :
    Option String :=
  match dirs with
  | [] => none
  | p :: rest =>
    let exe_file := osPathJoin (stripQuotes p) program
    if is_exe exe_file then some exe_file else whichSearch is_exe rest program

/-- `which(program)`; `pathsep` stands for `os.pathsep` and `pathEnv` for
`os.environ` at key `PATH`. -/
def which (is_exe : String → Bool) (pathsep pathEnv program : String) : Option String :=
  let sp := osPathSplit program
  if sp.1 ≠ "" then
    if is_exe program then some program else none
  else
    whichSearch is_exe (pySplit pathEnv pathsep) program

/-- Outcome of locating the formatter binary: either a path to spawn, or
the missing-binary dialog (and no spawn). -/
inductive Resolution where
  | ok (path : String)
  | missingBinary
deriving DecidableEq

/-- Binary resolution in `ClangFormat.py` (`ClangFormatCommand.run`,
lines 123–129): a truthy configured path is used with no check; only the
PATH-search fallback is checked with `is_exe`. -/
def resolveCF (is_exe : String → Bool) (pathsep pathEnv plat : String)
    (cfg : Option String) : Resolution :=
  match cfg with
  | some p =>
    if p = "" then
      match which is_exe pathsep pathEnv (binary_name plat) with
      | none => .missingBinary
      | some q => if q = "" || !(is_exe q) then .missingBinary else .ok q
    else .ok p
  | none =>
    match which is_exe pathsep pathEnv (binary_name plat) with
    | none => .missingBinary
    | some q => if q = "" || !(is_exe q) then .missingBinary else .ok q

/-- Binary resolution in `SublimeClangFormat.py` (`ClangFormatCommand.run`,
lines 108–116): the `not binary_path or not is_exe(binary_path)` check is
applied to the configured path as well as to the PATH-search result. -/
def resolveSCF (is_exe : String → Bool) (pathsep pathEnv plat : String)
    (cfg : Option String) : Resolution :=
  let binary_path :=
    match cfg with
    | some p => if p = "" then which is_exe pathsep pathEnv (binary_name plat) else some p
    | none => which is_exe pathsep pathEnv (binary_name plat)
  match binary_path with
  | none => .missingBinary
  | some q => if q = "" || !(is_exe q) then .missingBinary else .ok q

/-- A selection region, `a` and `b` being the two endpoints
(`sublime.Region`), possibly reversed. -/
structure Region where
  a : Nat
  b : Nat
deriving DecidableEq

/-- The two flag pairs appended per selection region:
`['-offset', str(min(a, b)), '-length', str(abs(b - a))]`. -/
def regionArgs (r : Region) : List String :=
  ["-offset", pyStr (min r.a r.b), "-length", pyStr (Int.natAbs ((r.b : Int) - (r.a : Int)))]

/-- The `if self.view.file_name(): args.extend(...)` step: the
assume-filename flag pair when a truthy file name is present (Python
truthiness: `None` and the empty string emit nothing). -/
def fnameArgs (file_name : Option String) : List String :=
  match file_name with
  | some f => if f = "" then [] else ["-assume-filename", f]
  | none => []

/-- The argument list built in `ClangFormatCommand.run` from the resolved
binary path, the optional file name and the region list.  Both files build
it identically; `ClangFormat.py` passes the empty region list when
`only_selection` is false. -/
def buildArgs (binary_path : String) (file_name : Option String)
    (regions : List Region) : List String :=
  [binary_path, "-fallback-style", style] ++ fnameArgs file_name ++
    regions.flatMap regionArgs

/-- Captured output of the spawned process (`process.communicate`), plus the
exit code, which the source never reads. -/
structure ProcOutput where
  stdout : List Nat
  stderr : List Nat
  exitCode : Int
deriving DecidableEq

/-- Which callback `run_in_thread` invokes, and with which bytes. -/
inductive Delivered where
  | on_error (err : List Nat)
  | on_exit (output : List Nat)
deriving DecidableEq

/-- The dispatch at the end of `run_in_thread` (both files):
`if error: on_error(error) else: on_exit(output)`. -/
def run_in_thread (po : ProcOutput) : Delivered :=
  if po.stderr ≠ [] then .on_error po.stderr else .on_exit po.stdout

/-- `ClangFormat.py`, `on_formatting_error`: the status message is built
from `error.decode` at encoding utf-8; `none` models the decode raising
(no message shown). -/
def on_formatting_error_CF (error : List Nat) : Option String :=
  (utf8Decode error).map (fun s => "ClangFormat: Formatting error: " ++ String.mk s)

/-- `SublimeClangFormat.py`, `on_formatting_error`: the status message
interpolates the `bytes` object itself, so it contains the Python repr of
the bytes, not their decoded text. -/
def on_formatting_error_SCF (error : List Nat) : String :=
  "ClangFormat: Formatting error: " ++ pyBytesRepr error

/-! ## The full command pipeline -/

/-- The view state the command reads: buffer text, reported encoding,
optional file name, current selection regions. -/
structure View where
  bufferText : String
  viewEncoding : String
  fileName : Option String
  sel : List Region
deriving DecidableEq

/-- What happens after the process terminates and a callback runs. -/
inductive Outcome where
  | replaced (text : String)
  | errorMsg (msg : String)
  | callbackRaised
deriving DecidableEq

/-- Result of one run of the `clang_format` command. -/
inductive CmdResult where
  | missingBinary
  | encodeRaised
  | spawned (args : List String) (stdin : List Nat) (outcome : Outcome)
deriving DecidableEq

/-- `encoding if encoding != 'Undefined' else 'utf-8'` (both files). -/
def effectiveEncoding (e : String) : String :=
  if e = "Undefined" then "utf-8" else e

/-- One run of `clang_format` in `ClangFormat.py`: resolution, argument
building (regions only when `only_selection`), encoding of the buffer,
spawn, dispatch on stderr, and the callback.  `encodeWith`/`decodeWith`
are the codec registry (by encoding name); `proc` gives the spawned
process's behaviour as a function of argument list and stdin bytes. -/
def commandCF (is_exe : String → Bool) (pathsep pathEnv plat : String)
    (cfg : Option String)
    (encodeWith : String → String → Option (List Nat))
    (decodeWith : String → List Nat → Option String)
    (proc : List String → List Nat → ProcOutput)
    (view : View) (only_selection : Bool) : CmdResult :=
  match resolveCF is_exe pathsep pathEnv plat cfg with
  | .missingBinary => .missingBinary
  | .ok binary_path =>
    let args := buildArgs binary_path view.fileName (if only_selection then view.sel else [])
    let encoding := effectiveEncoding view.viewEncoding
    match encodeWith encoding view.bufferText with
    | none => .encodeRaised
    | some sb =>
      let po := proc args sb
      match run_in_thread po with
      | .on_error err =>
        .spawned args sb
          (match utf8Decode err with
           | some s => .errorMsg ("ClangFormat: Formatting error: " ++ String.mk s)
           | none => .callbackRaised)
      | .on_exit output =>
        .spawned args sb
          (match decodeWith encoding output with
           | some s => .replaced s
           | none => .callbackRaised)

/-- One run of `clang_format` in `SublimeClangFormat.py`: as `commandCF`,
but all selection regions are always passed, and the error message embeds
the bytes repr (`"%s" % error`). -/
def commandSCF (is_exe : String → Bool) (pathsep pathEnv plat : String)
    (cfg : Option String)
    (encodeWith : String → String → Option (List Nat))
    (decodeWith : String → List Nat → Option String)
    (proc : List String → List Nat → ProcOutput)
    (view : View) : CmdResult :=
  match resolveSCF is_exe pathsep pathEnv plat cfg with
  | .missingBinary => .missingBinary
  | .ok binary_path =>
    let args := buildArgs binary_path view.fileName view.sel
    let encoding := effectiveEncoding view.viewEncoding
    match encodeWith encoding view.bufferText with
    | none => .encodeRaised
    | some sb =>
      let po := proc args sb
      match run_in_thread po with
      | .on_error err => .spawned args sb (.errorMsg (on_formatting_error_SCF err))
      | .on_exit output =>
        .spawned args sb
          (match decodeWith encoding output with
           | some s => .replaced s
           | none => .callbackRaised)

/-- `self.view.replace(edit, sublime.Region(a, b), text)` on a buffer. -/
def viewReplace (buffer : String) (a b : Nat) (text : String) : String :=
  String.mk (buffer.toList.take a ++ text.toList ++ buffer.toList.drop b)

/-- `ClangFormatApplyCommand.run`: a single edit replacing
`sublime.Region(0, self.view.size())` with the formatted output. -/
def clang_format_apply (buffer : String) (output : String) : String :=
  viewReplace buffer 0 buffer.toList.length output

/-- The buffer after the command result is acted on: only a successful
`replaced` outcome runs `clang_format_apply`; every other result leaves
the buffer alone. -/
def finalBuffer (view : View) (r : CmdResult) : String :=
  match r with
  | .spawned _ _ (.replaced s) => clang_format_apply view.bufferText s
  | _ => view.bufferText

/-! ## Helper lemmas -/

theorem natDigits_mem : ∀ (fuel n : Nat) (acc : List Char) (c : Char),
    c ∈ natDigits fuel n acc → (48 ≤ c.toNat ∧ c.toNat ≤ 57) ∨ c ∈ acc := by
  intro fuel
  induction fuel with
  | zero => intro n acc c hc; right; simpa [natDigits] using hc
  | succ fuel ih =>
    intro n acc c hc
    rw [natDigits] at hc
    by_cases hn : n = 0
    · right; simpa [hn] using hc
    · simp only [hn, if_false] at hc
      rcases ih (n / 10) _ c hc with h | h
      · left; exact h
      · rcases List.mem_cons.mp h with h | h
        · left
          subst h
          have h10 : n % 10 < 10 := Nat.mod_lt _ (by decide)
          revert h10
          generalize (n % 10) = d
          intro h10
          unfold digitChar
          interval_cases d <;> decide
        · right; exact h

theorem hyphen_notin_pyStr (n : Nat) : Char.ofNat 45 ∉ (pyStr n).toList := by
  unfold pyStr
  split
  · decide
  · intro hmem
    have hmem2 : Char.ofNat 45 ∈ natDigits n n [] := hmem
    rcases natDigits_mem n n [] _ hmem2 with ⟨h1, _⟩ | h
    · have h45 : (Char.ofNat 45).toNat = 45 := by decide
      omega
    · simp at h

theorem pyStr_ne_offset (n : Nat) : pyStr n ≠ "-offset" := by
  intro h
  apply hyphen_notin_pyStr n
  rw [h]
  decide

theorem pyStr_ne_length (n : Nat) : pyStr n ≠ "-length" := by
  intro h
  apply hyphen_notin_pyStr n
  rw [h]
  decide

theorem regionArgs_count_offset (r : Region) : (regionArgs r).count "-offset" = 1 := by
  have h1 := pyStr_ne_offset (min r.a r.b)
  have h2 := pyStr_ne_offset (Int.natAbs ((r.b : Int) - (r.a : Int)))
  simp [regionArgs, List.count_cons, h1, h2]

theorem regionArgs_count_length (r : Region) : (regionArgs r).count "-length" = 1 := by
  have h1 := pyStr_ne_length (min r.a r.b)
  have h2 := pyStr_ne_length (Int.natAbs ((r.b : Int) - (r.a : Int)))
  simp [regionArgs, List.count_cons, h1, h2]

theorem flatMap_regionArgs_count_offset (rs : List Region) :
    (rs.flatMap regionArgs).count "-offset" = rs.length := by
  induction rs with
  | nil => rfl
  | cons r t ih =>
    rw [List.flatMap_cons, List.count_append, regionArgs_count_offset, ih, List.length_cons]
    omega

theorem flatMap_regionArgs_count_length (rs : List Region) :
    (rs.flatMap regionArgs).count "-length" = rs.length := by
  induction rs with
  | nil => rfl
  | cons r t ih =>
    rw [List.flatMap_cons, List.count_append, regionArgs_count_length, ih, List.length_cons]
    omega

theorem whichSearch_eq_findSome (is_exe : String → Bool) (dirs : List String)
    (program : String) :
    whichSearch is_exe dirs program =
      dirs.findSome? (fun d =>
        let f := osPathJoin (stripQuotes d) program
        if is_exe f then some f else none) := by
  induction dirs with
  | nil => rfl
  | cons p rest ih =>
    rw [whichSearch, List.findSome?_cons]
    by_cases h : is_exe (osPathJoin (stripQuotes p) program) <;> simp [h, ih]

theorem whichSearch_some (is_exe : String → Bool) (dirs : List String)
    (program f : String) (h : whichSearch is_exe dirs program = some f) :
    is_exe f = true ∧ ∃ d ∈ dirs, f = osPathJoin (stripQuotes d) program := by
  induction dirs with
  | nil => simp [whichSearch] at h
  | cons p rest ih =>
    rw [whichSearch] at h
    by_cases hx : is_exe (osPathJoin (stripQuotes p) program)
    · simp only [hx, if_true, Option.some.injEq] at h
      subst h
      exact ⟨hx, p, List.mem_cons_self p rest, rfl⟩
    · simp only [hx, if_false] at h
      obtain ⟨h1, d, hd, hf⟩ := ih h
      exact ⟨h1, d, List.mem_cons_of_mem p hd, hf⟩

theorem osPathJoin_ne_empty (a b : String) (hb : b ≠ "") : osPathJoin a b ≠ "" := by
  have hdata : b.data ≠ [] := by
    intro h
    exact hb (String.ext h)
  unfold osPathJoin
  split
  · exact hb
  · split
    · intro h
      have h2 := congrArg String.data h
      rw [String.data_append] at h2
      rcases List.append_eq_nil.mp h2 with ⟨_, h4⟩
      exact hdata h4
    · intro h
      have h2 := congrArg String.data h
      rw [String.data_append, String.data_append] at h2
      rcases List.append_eq_nil.mp h2 with ⟨_, h4⟩
      exact hdata h4

theorem binary_name_ne_empty (plat : String) : binary_name plat ≠ "" := by
  unfold binary_name
  split <;> decide

theorem which_binary_name (is_exe : String → Bool) (pathsep pathEnv plat : String) :
    which is_exe pathsep pathEnv (binary_name plat) =
      whichSearch is_exe (pySplit pathEnv pathsep) (binary_name plat) := by
  unfold which binary_name
  by_cases h : strContains plat "win32" <;> simp only [h, if_true, if_false] <;> rfl

theorem resolveCF_none_eq (is_exe : String → Bool) (pathsep pathEnv plat : String) :
    resolveCF is_exe pathsep pathEnv plat none =
      (match whichSearch is_exe (pySplit pathEnv pathsep) (binary_name plat) with
       | some f => Resolution.ok f
       | none => Resolution.missingBinary) := by
  unfold resolveCF
  rw [which_binary_name]
  cases h : whichSearch is_exe (pySplit pathEnv pathsep) (binary_name plat) with
  | none => rfl
  | some q =>
    obtain ⟨hx, d, _, hq⟩ := whichSearch_some is_exe _ _ _ h
    have hne : q ≠ "" := by
      rw [hq]
      exact osPathJoin_ne_empty _ _ (binary_name_ne_empty plat)
    simp [hx, hne]

theorem resolveSCF_none_eq (is_exe : String → Bool) (pathsep pathEnv plat : String) :
    resolveSCF is_exe pathsep pathEnv plat none =
      (match whichSearch is_exe (pySplit pathEnv pathsep) (binary_name plat) with
       | some f => Resolution.ok f
       | none => Resolution.missingBinary) := by
  unfold resolveSCF
  rw [which_binary_name]
  cases h : whichSearch is_exe (pySplit pathEnv pathsep) (binary_name plat) with
  | none => rfl
  | some q =>
    obtain ⟨hx, d, _, hq⟩ := whichSearch_some is_exe _ _ _ h
    have hne : q ≠ "" := by
      rw [hq]
      exact osPathJoin_ne_empty _ _ (binary_name_ne_empty plat)
    simp [hx, hne]

theorem clang_format_apply_eq (buffer output : String) :
    clang_format_apply buffer output = output := by
  unfold clang_format_apply viewReplace
  rw [List.take_zero, List.drop_length, List.nil_append, List.append_nil]
  rfl

/-! ## Claim theorems -/

/-- C5: for every non-empty configured binary path that passes the
executability check, resolution in both files returns that exact path
unchanged (no normalization, no PATH lookup — the result does not depend
on `pathEnv`). -/
theorem c5_configured_exact (is_exe : String → Bool) (pathsep pathEnv plat p : String)
    (hp : p ≠ "") (hx : is_exe p = true) :
    resolveCF is_exe pathsep pathEnv plat (some p) = .ok p ∧
    resolveSCF is_exe pathsep pathEnv plat (some p) = .ok p := by
  constructor
  · unfold resolveCF
    simp [hp]
  · unfold resolveSCF
    simp [hp, hx]

/-- Witness for C5 at a concrete executable configured path. -/
theorem c5_witness :
    resolveCF (fun s => s == "/opt/cf") ":" "/sbin" "linux" (some "/opt/cf") = .ok "/opt/cf" ∧
    resolveSCF (fun s => s == "/opt/cf") ":" "/sbin" "linux" (some "/opt/cf") = .ok "/opt/cf" :=
  c5_configured_exact (fun s => s == "/opt/cf") ":" "/sbin" "linux" "/opt/cf"
    (by decide) (by decide)

/-- C2 fails on `ClangFormat.py`: a non-empty configured path that is not
executable (here `is_exe` is constantly false) is not rejected with the
missing-binary resolution; the path is accepted verbatim. -/
theorem c2_counterexample :
    resolveCF (fun _ => false) ":" "" "linux" (some "/etc/hosts") = .ok "/etc/hosts" ∧
    resolveCF (fun _ => false) ":" "" "linux" (some "/etc/hosts") ≠ Resolution.missingBinary ∧
    (fun (_ : String) => false) "/etc/hosts" = false :=
  ⟨rfl, by decide, rfl⟩

/-- C2 amended: in `SublimeClangFormat.py` every non-empty configured path
that fails the executability check resolves to the missing-binary error
irrespective of PATH, while `ClangFormat.py` applies no check to a
non-empty configured path and uses it verbatim. -/
theorem c2_amended (is_exe : String → Bool) (pathsep pathEnv plat p : String)
    (hp : p ≠ "") (hx : is_exe p = false) :
    resolveSCF is_exe pathsep pathEnv plat (some p) = .missingBinary ∧
    resolveCF is_exe pathsep pathEnv plat (some p) = .ok p := by
  constructor
  · unfold resolveSCF
    simp [hp, hx]
  · unfold resolveCF
    simp [hp]

/-- Witness for the amended C2 at a concrete non-executable configured
path. -/
theorem c2_witness :
    resolveSCF (fun _ => false) ":" "/usr/bin" "linux" (some "/etc/hosts") = .missingBinary ∧
    resolveCF (fun _ => false) ":" "/usr/bin" "linux" (some "/etc/hosts") = .ok "/etc/hosts" :=
  c2_amended (fun _ => false) ":" "/usr/bin" "linux" "/etc/hosts" (by decide) rfl

/-- C4: with no configured path, both files search each directory of the
PATH environment variable in listed order (as split on the path
separator, each entry stripped of surrounding double quotes) for an
executable named after the platform-specific binary name, return the
first match, and resolve to the missing-binary error when PATH is
exhausted without a match. -/
theorem c4_path_search (is_exe : String → Bool) (pathsep pathEnv plat : String) :
    (strContains plat "win32" = true → binary_name plat = "clang-format.exe") ∧
    (strContains plat "win32" = false → binary_name plat = "clang-format") ∧
    resolveCF is_exe pathsep pathEnv plat none =
      (match (pySplit pathEnv pathsep).findSome? (fun d =>
          let f := osPathJoin (stripQuotes d) (binary_name plat)
          if is_exe f then some f else none) with
       | some f => Resolution.ok f
       | none => Resolution.missingBinary) ∧
    resolveSCF is_exe pathsep pathEnv plat none =
      (match (pySplit pathEnv pathsep).findSome? (fun d =>
          let f := osPathJoin (stripQuotes d) (binary_name plat)
          if is_exe f then some f else none) with
       | some f => Resolution.ok f
       | none => Resolution.missingBinary) := by
  refine ⟨?_, ?_, ?_, ?_⟩
  · intro h
    unfold binary_name
    simp [h]
  · intro h
    unfold binary_name
    simp [h]
  · rw [resolveCF_none_eq, whichSearch_eq_findSome]
  · rw [resolveSCF_none_eq, whichSearch_eq_findSome]

/-- Witness for C4: a two-directory PATH where only the second directory
holds the binary; the search returns the match from the second entry. -/
theorem c4_witness :
    binary_name "linux" = "clang-format" ∧
    resolveCF (fun s => s == "/usr/bin/clang-format") ":" "/sbin:/usr/bin" "linux" none =
      .ok "/usr/bin/clang-format" ∧
    resolveSCF (fun _ => false) ":" "/sbin:/usr/bin" "linux" none = .missingBinary := by
  refine ⟨(c4_path_search (fun _ => false) ":" "/sbin:/usr/bin" "linux").2.1 (by decide), ?_, ?_⟩
  · rw [(c4_path_search (fun s => s == "/usr/bin/clang-format") ":" "/sbin:/usr/bin" "linux").2.2.1]
    decide
  · rw [(c4_path_search (fun _ => false) ":" "/sbin:/usr/bin" "linux").2.2.2]
    decide

/-- C10: the per-region flags use the minimum endpoint as offset and the
absolute endpoint difference as length, so a reversed selection yields
the same arguments and a zero-length caret still emits an offset flag and
a length flag with value 0. -/
theorem c10_region_flags (a b : Nat) :
    regionArgs ⟨a, b⟩ =
      ["-offset", pyStr (min a b), "-length", pyStr (Int.natAbs ((b : Int) - (a : Int)))] ∧
    regionArgs ⟨a, b⟩ = regionArgs ⟨b, a⟩ ∧
    regionArgs ⟨a, a⟩ = ["-offset", pyStr a, "-length", "0"] := by
  refine ⟨rfl, ?_, ?_⟩
  · have habs : ((b : Int) - (a : Int)).natAbs = ((a : Int) - (b : Int)).natAbs := by
      rw [← Int.natAbs_neg, neg_sub]
    unfold regionArgs
    rw [Nat.min_comm]
    simp [habs]
  · unfold regionArgs
    simp [pyStr]

/-- C3: the argument list always starts with the executable path, the
fallback-style flag and the style identifier; the region flags are
appended after the fixed part in caller order, one offset flag and one
length flag per region carrying the decimal offset and length; with zero
regions no offset/length flag is emitted. -/
theorem c3_buildArguments (binary_path : String) (file_name : Option String)
    (regions : List Region)
    (h1 : binary_path ≠ "-offset") (h2 : binary_path ≠ "-length")
    (h3 : ∀ f, file_name = some f → f ≠ "-offset" ∧ f ≠ "-length") :
    (buildArgs binary_path file_name regions).take 3 =
      [binary_path, "-fallback-style", style] ∧
    buildArgs binary_path file_name regions =
      buildArgs binary_path file_name [] ++
        regions.flatMap (fun r =>
          ["-offset", pyStr (min r.a r.b), "-length",
            pyStr (Int.natAbs ((r.b : Int) - (r.a : Int)))]) ∧
    (buildArgs binary_path file_name []).count "-offset" = 0 ∧
    (buildArgs binary_path file_name []).count "-length" = 0 ∧
    (buildArgs binary_path file_name regions).count "-offset" = regions.length ∧
    (buildArgs binary_path file_name regions).count "-length" = regions.length := by
  have hfn_off : (fnameArgs file_name).count "-offset" = 0 := by
    unfold fnameArgs
    cases file_name with
    | none => rfl
    | some f =>
      by_cases hf : f = ""
      · simp [hf]
      · obtain ⟨hfo, _⟩ := h3 f rfl
        simp [hf, List.count_cons, hfo]
  have hfn_len : (fnameArgs file_name).count "-length" = 0 := by
    unfold fnameArgs
    cases file_name with
    | none => rfl
    | some f =>
      by_cases hf : f = ""
      · simp [hf]
      · obtain ⟨_, hfl⟩ := h3 f rfl
        simp [hf, List.count_cons, hfl]
  have hpre_off : ([binary_path, "-fallback-style", style] : List String).count "-offset" = 0 := by
    simp [List.count_cons, h1, style]
  have hpre_len : ([binary_path, "-fallback-style", style] : List String).count "-length" = 0 := by
    simp [List.count_cons, h2, style]
  refine ⟨rfl, ?_, ?_, ?_, ?_, ?_⟩
  · unfold buildArgs
    rw [List.flatMap_nil, List.append_nil]
    exact rfl
  · unfold buildArgs
    rw [List.count_append, List.count_append, hfn_off, hpre_off]
    rfl
  · unfold buildArgs
    rw [List.count_append, List.count_append, hfn_len, hpre_len]
    rfl
  · unfold buildArgs
    rw [List.count_append, List.count_append, hfn_off, hpre_off,
      flatMap_regionArgs_count_offset]
    omega
  · unfold buildArgs
    rw [List.count_append, List.count_append, hfn_len, hpre_len,
      flatMap_regionArgs_count_length]
    omega

/-- Witness for C3 at a concrete binary path, filename and two regions. -/
theorem c3_witness :
    (buildArgs "/usr/bin/clang-format" (some "/tmp/a.cc") [⟨2, 7⟩, ⟨10, 4⟩]).take 3 =
      ["/usr/bin/clang-format", "-fallback-style", style] ∧
    (buildArgs "/usr/bin/clang-format" (some "/tmp/a.cc") [⟨2, 7⟩, ⟨10, 4⟩]).count "-offset" = 2 ∧
    (buildArgs "/usr/bin/clang-format" (some "/tmp/a.cc") []).count "-offset" = 0 := by
  have h := c3_buildArguments "/usr/bin/clang-format" (some "/tmp/a.cc") [⟨2, 7⟩, ⟨10, 4⟩]
    (by decide) (by decide)
    (by intro f hf; cases hf; exact ⟨by decide, by decide⟩)
  exact ⟨h.1, h.2.2.2.2.1, h.2.2.1⟩

/-- C10 witness is not needed (no hypotheses), but the reversed-selection
instance is recorded concretely: region (7,3) and region (3,7) produce
identical flags, and a caret at 5 emits a zero length flag. -/
theorem c10_witness :
    regionArgs ⟨7, 3⟩ = regionArgs ⟨3, 7⟩ ∧
    regionArgs ⟨5, 5⟩ = ["-offset", "5", "-length", "0"] :=
  ⟨(c10_region_flags 7 3).2.1, by decide⟩

/-- C6: with empty stderr the dispatch hands exactly the stdout bytes to
the success callback; per process termination exactly one of the two
callbacks fires — one of the two deliveries always happens, both never
do, and which one is determined by stderr emptiness. -/
theorem c6_success_delivery (po : ProcOutput) :
    (po.stderr = [] → run_in_thread po = .on_exit po.stdout) ∧
    (po.stderr ≠ [] → run_in_thread po = .on_error po.stderr) ∧
    (run_in_thread po = .on_exit po.stdout ∨ run_in_thread po = .on_error po.stderr) ∧
    (∀ out err, ¬(run_in_thread po = .on_exit out ∧ run_in_thread po = .on_error err)) := by
  refine ⟨?_, ?_, ?_, ?_⟩
  · intro h
    unfold run_in_thread
    simp [h]
  · intro h
    unfold run_in_thread
    simp [h]
  · unfold run_in_thread
    by_cases h : po.stderr = [] <;> simp [h]
  · intro out err hboth
    obtain ⟨hexit, herr⟩ := hboth
    rw [hexit] at herr
    simp at herr

/-- Witness for C6 at a process that writes bytes to stdout only. -/
theorem c6_witness : run_in_thread ⟨[70, 71], [], 0⟩ = .on_exit [70, 71] :=
  (c6_success_delivery ⟨[70, 71], [], 0⟩).1 rfl

/-- C1 amended: any non-empty stderr is delivered to the error callback
exactly once regardless of stdout and exit code, and stdout is not
surfaced; the user-visible message prefixes the utf-8-decoded stderr text
in `ClangFormat.py` (no message when the bytes do not decode), while in
`SublimeClangFormat.py` it embeds the Python repr of the stderr bytes
rather than their decoded text. -/
theorem c1_stderr_authoritative (po : ProcOutput) (h : po.stderr ≠ []) :
    run_in_thread po = .on_error po.stderr ∧
    (∀ out2 ec2, run_in_thread ⟨out2, po.stderr, ec2⟩ = .on_error po.stderr) ∧
    (∀ s, utf8Decode po.stderr = some s →
      on_formatting_error_CF po.stderr =
        some ("ClangFormat: Formatting error: " ++ String.mk s)) ∧
    on_formatting_error_SCF po.stderr =
      "ClangFormat: Formatting error: " ++ pyBytesRepr po.stderr := by
  refine ⟨?_, ?_, ?_, rfl⟩
  · unfold run_in_thread
    simp [h]
  · intro out2 ec2
    unfold run_in_thread
    simp [h]
  · intro s hs
    unfold on_formatting_error_CF
    rw [hs]
    rfl

/-- Witness for the amended C1: stderr bytes are delivered to the error
callback even though stdout is non-empty. -/
theorem c1_witness :
    run_in_thread ⟨[88], [101, 114, 114], 1⟩ = .on_error [101, 114, 114] :=
  (c1_stderr_authoritative ⟨[88], [101, 114, 114], 1⟩ (by decide)).1

/-- C1 fails as stated on `SublimeClangFormat.py`: for stderr bytes
spelling oops, the decoded stderr text is oops, but the status message
shown to the user embeds the bytes repr, not the decoded text. -/
theorem c1_counterexample :
    utf8Decode [111, 111, 112, 115] = some "oops".toList ∧
    on_formatting_error_SCF [111, 111, 112, 115] ≠
      "ClangFormat: Formatting error: " ++ "oops" ∧
    on_formatting_error_SCF [111, 111, 112, 115] =
      "ClangFormat: Formatting error: b" ++ String.mk [Char.ofNat 39] ++ "oops" ++
        String.mk [Char.ofNat 39] :=
  ⟨by decide, by decide, by decide⟩

/-- C7: the buffer is encoded for stdin with the view's reported encoding
after the Undefined-to-utf-8 fallback, and on success the stdout bytes
are decoded back with that same encoding value: under the stated
resolution, codec and process behaviour, both commands spawn with exactly
the bytes of the buffer encoded at `effectiveEncoding view.viewEncoding`
and replace the buffer with the stdout decoded at the same value. -/
theorem c7_encoding_roundtrip
    (is_exe : String → Bool) (pathsep pathEnv plat : String) (cfg : Option String)
    (encodeWith : String → String → Option (List Nat))
    (decodeWith : String → List Nat → Option String)
    (proc : List String → List Nat → ProcOutput)
    (view : View) (only_selection : Bool)
    (bp : String) (sb out : List Nat) (ec : Int) (s : String)
    (h1 : resolveCF is_exe pathsep pathEnv plat cfg = .ok bp)
    (h1s : resolveSCF is_exe pathsep pathEnv plat cfg = .ok bp)
    (h2 : encodeWith (effectiveEncoding view.viewEncoding) view.bufferText = some sb)
    (h3 : proc (buildArgs bp view.fileName (if only_selection then view.sel else [])) sb =
      ⟨out, [], ec⟩)
    (h3s : proc (buildArgs bp view.fileName view.sel) sb = ⟨out, [], ec⟩)
    (h4 : decodeWith (effectiveEncoding view.viewEncoding) out = some s) :
    commandCF is_exe pathsep pathEnv plat cfg encodeWith decodeWith proc view only_selection =
      .spawned (buildArgs bp view.fileName (if only_selection then view.sel else [])) sb
        (.replaced s) ∧
    commandSCF is_exe pathsep pathEnv plat cfg encodeWith decodeWith proc view =
      .spawned (buildArgs bp view.fileName view.sel) sb (.replaced s) ∧
    effectiveEncoding "Undefined" = "utf-8" ∧
    (view.viewEncoding ≠ "Undefined" → effectiveEncoding view.viewEncoding = view.viewEncoding) := by
  refine ⟨?_, ?_, rfl, ?_⟩
  · simp only [commandCF, h1, h2, h3, run_in_thread, ne_eq, not_true_eq_false, if_false, h4]
  · simp only [commandSCF, h1s, h2, h3s, run_in_thread, ne_eq, not_true_eq_false, if_false, h4]
  · intro h
    unfold effectiveEncoding
    simp [h]

/-- Witness for C7: an echo process on a buffer of two ASCII characters
with an Undefined view encoding; the utf-8 fallback is used on both
sides. -/
theorem c7_witness :
    commandCF (fun _ => true) ":" "" "linux" (some "/opt/cf")
      (fun _ t => some (t.toList.map Char.toNat))
      (fun _ bs => some (String.mk (bs.map Char.ofNat)))
      (fun _ i => ⟨i, [], 0⟩)
      ⟨"ab", "Undefined", none, []⟩ true =
      .spawned (buildArgs "/opt/cf" none []) [97, 98] (.replaced "ab") ∧
    commandSCF (fun _ => true) ":" "" "linux" (some "/opt/cf")
      (fun _ t => some (t.toList.map Char.toNat))
      (fun _ bs => some (String.mk (bs.map Char.ofNat)))
      (fun _ i => ⟨i, [], 0⟩)
      ⟨"ab", "Undefined", none, []⟩ =
      .spawned (buildArgs "/opt/cf" none []) [97, 98] (.replaced "ab") := by
  have h := c7_encoding_roundtrip (fun _ => true) ":" "" "linux" (some "/opt/cf")
    (fun _ t => some (t.toList.map Char.toNat))
    (fun _ bs => some (String.mk (bs.map Char.ofNat)))
    (fun _ i => ⟨i, [], 0⟩)
    ⟨"ab", "Undefined", none, []⟩ true
    "/opt/cf" [97, 98] [97, 98] 0 "ab"
    (by decide) (by decide) (by decide) (by decide) (by decide) (by decide)
  exact ⟨h.1, h.2.1⟩

/-- C8: buffer replacement is all-or-nothing in both files — a successful
invocation replaces the whole buffer with the complete formatted output
in the single full-range edit of `clang_format_apply`, and the
missing-binary and stderr-error results leave the buffer unmodified. -/
theorem c8_all_or_nothing
    (is_exe : String → Bool) (pathsep pathEnv plat : String) (cfg : Option String)
    (encodeWith : String → String → Option (List Nat))
    (decodeWith : String → List Nat → Option String)
    (proc : List String → List Nat → ProcOutput)
    (view : View) (only_selection : Bool) :
    (commandCF is_exe pathsep pathEnv plat cfg encodeWith decodeWith proc view only_selection =
        .missingBinary →
      finalBuffer view
        (commandCF is_exe pathsep pathEnv plat cfg encodeWith decodeWith proc view
          only_selection) = view.bufferText) ∧
    (∀ args sb msg,
      commandCF is_exe pathsep pathEnv plat cfg encodeWith decodeWith proc view only_selection =
        .spawned args sb (.errorMsg msg) →
      finalBuffer view
        (commandCF is_exe pathsep pathEnv plat cfg encodeWith decodeWith proc view
          only_selection) = view.bufferText) ∧
    (∀ args sb s,
      commandCF is_exe pathsep pathEnv plat cfg encodeWith decodeWith proc view only_selection =
        .spawned args sb (.replaced s) →
      finalBuffer view
        (commandCF is_exe pathsep pathEnv plat cfg encodeWith decodeWith proc view
          only_selection) = s) ∧
    (commandSCF is_exe pathsep pathEnv plat cfg encodeWith decodeWith proc view =
        .missingBinary →
      finalBuffer view (commandSCF is_exe pathsep pathEnv plat cfg encodeWith decodeWith proc view) =
        view.bufferText) ∧
    (∀ args sb msg,
      commandSCF is_exe pathsep pathEnv plat cfg encodeWith decodeWith proc view =
        .spawned args sb (.errorMsg msg) →
      finalBuffer view (commandSCF is_exe pathsep pathEnv plat cfg encodeWith decodeWith proc view) =
        view.bufferText) ∧
    (∀ args sb s,
      commandSCF is_exe pathsep pathEnv plat cfg encodeWith decodeWith proc view =
        .spawned args sb (.replaced s) →
      finalBuffer view (commandSCF is_exe pathsep pathEnv plat cfg encodeWith decodeWith proc view) =
        s) := by
  refine ⟨?_, ?_, ?_, ?_, ?_, ?_⟩
  · intro h
    rw [h]
    rfl
  · intro args sb msg h
    rw [h]
    rfl
  · intro args sb s h
    rw [h]
    exact clang_format_apply_eq view.bufferText s
  · intro h
    rw [h]
    rfl
  · intro args sb msg h
    rw [h]
    rfl
  · intro args sb s h
    rw [h]
    exact clang_format_apply_eq view.bufferText s

/-- Witness for C8: with no binary anywhere the buffer stays unchanged,
and with an echo process the buffer becomes exactly the formatted
output. -/
theorem c8_witness :
    finalBuffer ⟨"ab", "Undefined", none, []⟩
      (commandCF (fun _ => false) ":" "" "linux" none
        (fun _ t => some (t.toList.map Char.toNat))
        (fun _ bs => some (String.mk (bs.map Char.ofNat)))
        (fun _ i => ⟨i, [], 0⟩)
        ⟨"ab", "Undefined", none, []⟩ true) = "ab" ∧
    finalBuffer ⟨"ab", "Undefined", none, []⟩
      (commandCF (fun _ => true) ":" "" "linux" (some "/opt/cf")
        (fun _ t => some (t.toList.map Char.toNat))
        (fun _ bs => some (String.mk (bs.map Char.ofNat)))
        (fun _ i => ⟨i, [], 0⟩)
        ⟨"ab", "Undefined", none, []⟩ true) = "ab" := by
  constructor
  · exact (c8_all_or_nothing (fun _ => false) ":" "" "linux" none
      (fun _ t => some (t.toList.map Char.toNat))
      (fun _ bs => some (String.mk (bs.map Char.ofNat)))
      (fun _ i => ⟨i, [], 0⟩)
      ⟨"ab", "Undefined", none, []⟩ true).1 (by decide)
  · exact (c8_all_or_nothing (fun _ => true) ":" "" "linux" (some "/opt/cf")
      (fun _ t => some (t.toList.map Char.toNat))
      (fun _ bs => some (String.mk (bs.map Char.ofNat)))
      (fun _ i => ⟨i, [], 0⟩)
      ⟨"ab", "Undefined", none, []⟩ true).2.2.1 (buildArgs "/opt/cf" none []) [97, 98] "ab"
      (by decide)
